import Mathlib

/-!
Shallow embedding of the transaction-analysis pipeline
(`src/preprocessing.py`, `src/features.py`).

Modelling conventions:
* A pandas `Timestamp` is a rational number of days since the epoch
  (fractional part = time of day); `NaT` is `none`.
* A float cell of the amount column is a `NumVal`: a finite rational,
  `nan` (covering `NaN`/`None` and values `pd.to_numeric(errors="coerce")`
  fails to parse — the string parser itself is pandas-library internals,
  abstracted into the input value), or an infinity.
* A DataFrame is a `Frame`: a schema (list of column names) together with
  typed rows; the caller-configured account/date/amount columns hold the
  typed fields of `Row`, further columns only matter through the schema.
* `pd.Timestamp.now()` (the implicit reference used by
  `clean_transaction_dates` when no reference column is given) is passed
  as an explicit parameter `ref`.
* Raising a Python `KeyError` is returning `Except.error (PdError.keyError c)`.
-/

namespace TxnAnalysis

/-- A float-typed cell value: finite rational, NaN, or an infinity. -/
inductive NumVal where
  | fin (q : ℚ)
  | nan
  | pinf
  | ninf
deriving DecidableEq, Repr

/-- One transaction record.  `date` is the (already `to_datetime`-parsed)
date column, `amount` the amount column, `daysSince` the
`_days_since_date` column when present. -/
structure Row where
  account : String
  date : Option ℚ
  amount : NumVal
  daysSince : Option Int
deriving DecidableEq, Repr

/-- A DataFrame: column names plus typed rows. -/
structure Frame where
  cols : List String
  rows : List Row
deriving DecidableEq, Repr

/-- Column assignment `df[c] = ...`: keeps the schema if `c` exists,
otherwise appends it. -/
def addCol (cols : List String) (c : String) : List String :=
  if c ∈ cols then cols else cols ++ [c]

/-- `Series.clip(lower, upper)` on integers (when `lower > upper`, the
upper bound wins, as in numpy/pandas). -/
def clip (lo hi v : Int) : Int := min hi (max lo v)

/-- Row part of `clean_transaction_dates` (src/preprocessing.py):
`to_datetime(errors="coerce")` (identity on the already-typed column),
set dates `< min_date` to NaT, then dates `> max_date` to NaT, compute
`(ref - date).dt.days` (floor; NaN for NaT), `.clip(0, cap_days)`,
`.fillna(cap_days).astype(int32)` into the `_days_since_date` column. -/
def cleanRow (min_date max_date : ℚ) (cap_days : Int) (ref : ℚ) (r : Row) : Row :=
  let d0 := r.date
  let d1 := match d0 with
    | some t => if t < min_date then none else some t
    | none => none
  let d2 := match d1 with
    | some t => if t > max_date then none else some t
    | none => none
  let raw := d2.map fun t => ⌊ref - t⌋
  let ds := (raw.map (clip 0 cap_days)).getD cap_days
  { r with date := d2, daysSince := some ds }

/-- `clean_transaction_dates` (src/preprocessing.py).  If the date column
is absent, warn and return the frame unchanged; otherwise clean every row
and add the `_days_since_date` column.  `reference_date_col` is not
supplied in the modelled configuration, so the scalar reference `ref`
stands for `pd.Timestamp.now()`. -/
def clean_transaction_dates (f : Frame) (date_col : String)
    (min_date max_date : ℚ) (cap_days : Int) (ref : ℚ) : Frame :=
  if date_col ∈ f.cols then
    { cols := addCol f.cols "_days_since_date",
      rows := f.rows.map (cleanRow min_date max_date cap_days ref) }
  else f

/-- Row part of `sanitize_amounts` (src/preprocessing.py):
`to_numeric(errors="coerce")` (identity on the typed column), set
non-finite values to NaN, `.fillna(fill_value).astype(float)`. -/
def sanitizeRow (fill : ℚ) (r : Row) : Row :=
  { r with amount := match r.amount with
      | NumVal.fin q => NumVal.fin q
      | _ => NumVal.fin fill }

/-- `sanitize_amounts` (src/preprocessing.py).  If the amount column is
absent, warn and return the frame unchanged. -/
def sanitize_amounts (f : Frame) (amount_col : String) (fill : ℚ) : Frame :=
  if amount_col ∈ f.cols then
    { f with rows := f.rows.map (sanitizeRow fill) }
  else f

/-! ### Calendar: `dt.floor("D")` and `dt.to_period("M")` -/

/-- Calendar day of a timestamp (`dt.floor("D")`), as days since epoch. -/
def dayKey (t : ℚ) : Int := ⌊t⌋

/-- Civil (year, month) of a day number counted from 1970-01-01,
proleptic Gregorian calendar (the computation behind pandas Periods). -/
def civilYM (z0 : Int) : Int × Int :=
  let z := z0 + 719468
  let era := Int.fdiv z 146097
  let doe := z - era * 146097
  let yoe := (doe - doe / 1460 + doe / 36524 - doe / 146096) / 365
  let doy := doe - (365 * yoe + yoe / 4 - yoe / 100)
  let mp := (5 * doy + 2) / 153
  let m := mp + (if mp < 10 then 3 else -9)
  (yoe + era * 400 + (if m ≤ 2 then 1 else 0), m)

/-- Monthly period of a timestamp (`dt.to_period("M")`). -/
def monthKey (t : ℚ) : Int × Int := civilYM ⌊t⌋

/-! ### `daily_and_monthly_aggregates` (src/features.py) -/

/-- The value a groupby-`sum` reads from an amount cell: NaN is skipped
(contributes 0, `skipna` default).  Infinities are mapped to 0 as well;
the aggregation theorems only quantify over sanitized (all-finite)
inputs, where this clause is unreachable. -/
def amountQ : NumVal → ℚ
  | NumVal.fin q => q
  | _ => 0

/-- Group keys of `df.groupby([account_col, "txn_date_only"])`: rows with
NaT dates are dropped (`dropna` default). -/
def dailyPairs (rows : List Row) : List (String × Int) :=
  rows.filterMap fun r => r.date.map fun t => (r.account, dayKey t)

/-- Sum of the amount column inside one `(account, day)` group. -/
def dailySum (rows : List Row) (k : String × Int) : ℚ :=
  ((rows.filter fun r => r.account = k.1 ∧ r.date.map dayKey = some k.2).map
    fun r => amountQ r.amount).sum

/-- One row of the `daily` frame: `[account_col, "txn_date_only", "daily_amount"]`. -/
structure DRow where
  account : String
  day : Int
  daily_amount : ℚ
deriving DecidableEq, Repr

/-- The `daily` frame: one row per distinct `(account, day)` key with the
group's amount sum.  (pandas sorts group keys; only the multiset of rows
is semantically meaningful, so keys are enumerated in `dedup` order.) -/
def dailyAgg (rows : List Row) : List DRow :=
  (dailyPairs rows).dedup.map fun k =>
    { account := k.1, day := k.2, daily_amount := dailySum rows k }

/-- Group keys of `df.groupby([account_col, "txn_month"])`. -/
def monthPairs (rows : List Row) : List (String × (Int × Int)) :=
  rows.filterMap fun r => r.date.map fun t => (r.account, monthKey t)

/-- Sum of the amount column inside one `(account, month)` group. -/
def monthSum (rows : List Row) (k : String × (Int × Int)) : ℚ :=
  ((rows.filter fun r => r.account = k.1 ∧ r.date.map monthKey = some k.2).map
    fun r => amountQ r.amount).sum

/-- One row of the grouped monthly-sum frame. -/
structure MRow where
  account : String
  month : Int × Int
  amount : ℚ
deriving DecidableEq, Repr

/-- First stage of the monthly baseline: sum per `(account, month)`. -/
def monthlyFrame (rows : List Row) : List MRow :=
  (monthPairs rows).dedup.map fun k =>
    { account := k.1, month := k.2, amount := monthSum rows k }

/-- `Series.mean()` over the listed values (groups are non-empty, so the
empty case never arises in the code paths below). -/
def listMean (l : List ℚ) : ℚ := l.sum / l.length

/-- Second stage (`monthly2` in the source): group the monthly-sum frame
by account and take the mean of the monthly totals. -/
def monthly2 (rows : List Row) : List (String × ℚ) :=
  ((monthlyFrame rows).map fun m => m.account).dedup.map fun a =>
    (a, listMean (((monthlyFrame rows).filter fun m => m.account = a).map
      fun m => m.amount))

/-- One row of the aggregated output frame. -/
structure AggRow where
  account : String
  day : Int
  daily_amount : ℚ
  monthly_baseline : ℚ
deriving DecidableEq, Repr

/-- `daily.merge(monthly2, on=account_col, how="left")` followed by
`out["monthly_baseline"].fillna(0.0)`. -/
def mergeBaseline (daily : List DRow) (m2 : List (String × ℚ)) : List AggRow :=
  daily.map fun d =>
    { account := d.account, day := d.day, daily_amount := d.daily_amount,
      monthly_baseline :=
        match m2.find? fun p => p.1 = d.account with
        | some p => p.2
        | none => 0 }

/-- A raised pandas exception. -/
inductive PdError where
  | keyError (col : String)
deriving DecidableEq, Repr

/-- `daily_and_monthly_aggregates` (src/features.py).  Checks, in source
order: the explicit `raise KeyError` when `date_col` is missing; the
daily groupby (KeyError when the account or amount column is missing);
the first, superseded monthly-baseline path, whose
`.groupby(account_col, as_index=False)["amount"]` selects the literal
column `"amount"` from a grouped frame with columns
`[account_col, "txn_month", amount_col]` — a KeyError unless one of
those is named `"amount"` (the mean it would compute is dead: only
`monthly2` flows into the output). -/
def daily_and_monthly_aggregates (f : Frame)
    (account_col date_col amount_col : String) : Except PdError (List AggRow) :=
  if date_col ∈ f.cols then
    let cols1 := addCol f.cols "txn_date_only"
    if account_col ∈ cols1 then
      if amount_col ∈ cols1 then
        if "amount" = account_col ∨ "amount" = amount_col then
          Except.ok (mergeBaseline (dailyAgg f.rows) (monthly2 f.rows))
        else Except.error (PdError.keyError "amount")
      else Except.error (PdError.keyError amount_col)
    else Except.error (PdError.keyError account_col)
  else Except.error (PdError.keyError date_col)

/-! ### `compute_velocity_features` (src/features.py) -/

/-- One output row of the velocity engine (temporary column dropped). -/
structure VelRow where
  account : String
  day : Int
  daily_amount : ℚ
  monthly_baseline : ℚ
  velocity : ℚ
  flag : Int
deriving DecidableEq, Repr

/-- The epsilon substituted for a zero daily-baseline estimate. -/
def eps : ℚ := 1 / 1000000000

/-- The fixed month-length constant. -/
def days_per_month : ℚ := 30

/-- Row part of `compute_velocity_features`: baseline to daily estimate,
`replace(0, eps)` zero-guard, ratio, strict greater-than flag. -/
def compute_velocity_row (threshold : ℚ) (r : AggRow) : VelRow :=
  let est0 := r.monthly_baseline / days_per_month
  let est := if est0 = 0 then eps else est0
  let v := r.daily_amount / est
  { account := r.account, day := r.day, daily_amount := r.daily_amount,
    monthly_baseline := r.monthly_baseline, velocity := v,
    flag := if v > threshold then 1 else 0 }

/-- `compute_velocity_features` (src/features.py), with the default
column configuration: a row-wise transformation of the aggregate frame. -/
def compute_velocity_features (daily_df : List AggRow) (threshold : ℚ) :
    List VelRow :=
  daily_df.map (compute_velocity_row threshold)

/-! ### Full pipeline and spec-side definitions -/

/-- The full pipeline: sanitize dates, sanitize amounts, aggregate,
compute velocity features. -/
def pipeline (f : Frame) (date_col : String) (min_date max_date : ℚ)
    (cap_days : Int) (ref : ℚ) (amount_col : String) (fill : ℚ)
    (account_col : String) (threshold : ℚ) : Except PdError (List VelRow) :=
  let f1 := clean_transaction_dates f date_col min_date max_date cap_days ref
  let f2 := sanitize_amounts f1 amount_col fill
  (daily_and_monthly_aggregates f2 account_col date_col amount_col).map
    fun d => compute_velocity_features d threshold

/-- Two pipeline results agree up to row order: same error, or outputs
that are permutations of one another. -/
def sameUpToRowOrder : Except PdError (List VelRow) → Except PdError (List VelRow) → Prop
  | Except.error e1, Except.error e2 => e1 = e2
  | Except.ok l1, Except.ok l2 => l1.Perm l2
  | _, _ => False

/-- Spec-side: the distinct calendar months in which account `a` has a
dated transaction. -/
def accountMonths (rows : List Row) (a : String) : List (Int × Int) :=
  ((rows.filter fun r => r.account = a).filterMap fun r =>
    r.date.map fun t => monthKey t).dedup

/-- Spec-side monthly baseline, following the spec's words: the
arithmetic mean, over the account's calendar months present in the
input, of the sum of that account's amounts in each month. -/
def specBaseline (rows : List Row) (a : String) : ℚ :=
  listMean ((accountMonths rows a).map fun m => monthSum rows (a, m))

/-! ### Helper lemmas -/

theorem mem_addCol_of_mem {cols : List String} {c d : String} (h : c ∈ cols) :
    c ∈ addCol cols d := by
  unfold addCol
  split
  · exact h
  · exact List.mem_append_left _ h

theorem mem_addCol_self (cols : List String) (c : String) : c ∈ addCol cols c := by
  unfold addCol
  split
  · assumption
  · exact List.mem_append_right _ (List.mem_singleton.mpr rfl)

theorem addCol_addCol (cols : List String) (c : String) :
    addCol (addCol cols c) c = addCol cols c := by
  rw [addCol, if_pos (mem_addCol_self cols c)]

theorem compute_velocity_row_velocity (threshold : ℚ) (r : AggRow) :
    (compute_velocity_row threshold r).velocity
      = r.daily_amount /
          (if r.monthly_baseline / days_per_month = 0 then eps
           else r.monthly_baseline / days_per_month) := rfl

theorem compute_velocity_row_flag (threshold : ℚ) (r : AggRow) :
    (compute_velocity_row threshold r).flag
      = if (compute_velocity_row threshold r).velocity > threshold then 1 else 0 := rfl

/-! ### Claims -/

/-- Claim C1 (code_bug evidence): on a schema that does contain the
configured (default) date, account and amount columns, the aggregation
still raises: the superseded first monthly-baseline path selects the
literal column `"amount"`, which is absent, so the call ends in
`KeyError("amount")` instead of returning the aggregated record set. -/
theorem aggregates_raise_on_complete_default_schema :
    daily_and_monthly_aggregates
      { cols := ["Account_Number", "Transaction_Date", "Transaction_Amount"],
        rows := [{ account := "A", date := some 20089,
                   amount := NumVal.fin 100, daysSince := none }] }
      "Account_Number" "Transaction_Date" "Transaction_Amount"
      = Except.error (PdError.keyError "amount") := by rfl

/-- Claim C2: for every input frame containing the configured account,
date and amount columns, when the amount column (and the account column)
is not literally named `"amount"`, `daily_and_monthly_aggregates` raises
`KeyError("amount")` before producing any output, because the first
(superseded) monthly-baseline path unconditionally selects a column
named `"amount"` from the grouped monthly sums. -/
theorem aggregates_keyerror_nondefault_amount (f : Frame)
    (account_col date_col amount_col : String)
    (hd : date_col ∈ f.cols) (ha : account_col ∈ f.cols)
    (hm : amount_col ∈ f.cols)
    (h1 : amount_col ≠ "amount") (h2 : account_col ≠ "amount") :
    daily_and_monthly_aggregates f account_col date_col amount_col
      = Except.error (PdError.keyError "amount") := by
  unfold daily_and_monthly_aggregates
  rw [if_pos hd, if_pos (mem_addCol_of_mem ha), if_pos (mem_addCol_of_mem hm),
    if_neg]
  rintro (h | h)
  · exact h2 h.symm
  · exact h1 h.symm

/-- Witness for C2 at a concrete frame with the documented default
column names. -/
theorem aggregates_keyerror_nondefault_amount_witness :
    ("Transaction_Date" ∈
        (["Account_Number", "Transaction_Date", "Transaction_Amount"] : List String)
      ∧ ("Transaction_Amount" : String) ≠ "amount"
      ∧ ("Account_Number" : String) ≠ "amount")
    ∧ daily_and_monthly_aggregates
        { cols := ["Account_Number", "Transaction_Date", "Transaction_Amount"],
          rows := [] }
        "Account_Number" "Transaction_Date" "Transaction_Amount"
        = Except.error (PdError.keyError "amount") :=
  ⟨⟨by decide, by decide, by decide⟩,
    aggregates_keyerror_nondefault_amount
      { cols := ["Account_Number", "Transaction_Date", "Transaction_Amount"],
        rows := [] }
      "Account_Number" "Transaction_Date" "Transaction_Amount"
      (by decide) (by decide) (by decide) (by decide) (by decide)⟩

/-- Claim C3: when the monthly baseline of a row is exactly zero, the
zero daily-baseline estimate is replaced by the positive epsilon `1e-9`
before dividing, so the division is never by zero and the velocity is
the finite value `daily_amount * 1e9`; in particular with
`daily_amount = 100` (default threshold 3) the flag is 1. -/
theorem velocity_zero_guard (threshold : ℚ) (r : AggRow)
    (h : r.monthly_baseline = 0) :
    0 < eps
    ∧ (compute_velocity_row threshold r).velocity = r.daily_amount / eps
    ∧ (compute_velocity_row threshold r).velocity = r.daily_amount * 1000000000
    ∧ (r.daily_amount = 100 → threshold = 3 →
        (compute_velocity_row threshold r).flag = 1 ∧
        (compute_velocity_row threshold r).velocity = 100000000000) := by
  refine ⟨by norm_num [eps], ?_, ?_, ?_⟩
  · rw [compute_velocity_row_velocity]
    norm_num [h, days_per_month]
  · rw [compute_velocity_row_velocity]
    norm_num [h, days_per_month, eps]
    rw [div_div_eq_mul_div, div_one]
  · intro h1 h3
    subst h3
    constructor
    · rw [compute_velocity_row_flag, compute_velocity_row_velocity]
      norm_num [h, h1, days_per_month, eps]
    · rw [compute_velocity_row_velocity]
      norm_num [h, h1, days_per_month, eps]

/-- Witness for C3 at `daily_amount = 100`, `monthly_baseline = 0`. -/
theorem velocity_zero_guard_witness :
    (0:ℚ) < eps
    ∧ (compute_velocity_row 3
        { account := "A", day := 0, daily_amount := 100,
          monthly_baseline := 0 }).flag = 1
    ∧ (compute_velocity_row 3
        { account := "A", day := 0, daily_amount := 100,
          monthly_baseline := 0 }).velocity = 100000000000 :=
  have h := velocity_zero_guard 3
    { account := "A", day := 0, daily_amount := 100, monthly_baseline := 0 } rfl
  ⟨h.1, (h.2.2.2 rfl rfl).1, (h.2.2.2 rfl rfl).2⟩

/-- Claim C5: the velocity flag uses strict greater-than semantics, and
the boundary scenario `daily_amount = 90`, `monthly_baseline = 900`
(estimate 30, velocity 3.0) yields flag 0 under the default threshold 3. -/
theorem velocity_flag_strict_gt (threshold : ℚ) (r : AggRow) :
    ((compute_velocity_row threshold r).flag = 1 ↔
      (compute_velocity_row threshold r).velocity > threshold)
    ∧ (r.daily_amount = 90 → r.monthly_baseline = 900 → threshold = 3 →
        (compute_velocity_row threshold r).velocity = 3 ∧
        (compute_velocity_row threshold r).flag = 0) := by
  constructor
  · rw [compute_velocity_row_flag]
    split
    · simp [*]
    · simp [*]
  · intro h1 h2 h3
    subst h3
    constructor
    · rw [compute_velocity_row_velocity]
      norm_num [h1, h2, days_per_month]
    · rw [compute_velocity_row_flag, compute_velocity_row_velocity]
      norm_num [h1, h2, days_per_month]

/-- Witness for C5 at the boundary scenario. -/
theorem velocity_flag_strict_gt_witness :
    (compute_velocity_row 3
      { account := "A", day := 0, daily_amount := 90,
        monthly_baseline := 900 }).velocity = 3
    ∧ (compute_velocity_row 3
      { account := "A", day := 0, daily_amount := 90,
        monthly_baseline := 900 }).flag = 0 :=
  (velocity_flag_strict_gt 3
    { account := "A", day := 0, daily_amount := 90,
      monthly_baseline := 900 }).2 rfl rfl rfl

/-- Claim C9, counterexample: a velocity record produced by
`compute_velocity_features` can carry a negative velocity ratio — a
daily total of 100 against a monthly baseline of -30 (negative amounts
pass sanitization untouched) gives velocity -100, so the claimed
invariant `velocity_ratio ≥ 0` is false. -/
theorem velocity_nonneg_cex :
    ((compute_velocity_features
        [{ account := "A", day := 0, daily_amount := 100,
           monthly_baseline := -30 }] 3).map fun v => v.velocity) = [-100]
    ∧ ¬ (0:ℚ) ≤ -100 := by
  constructor
  · norm_num [compute_velocity_features, compute_velocity_row, days_per_month, eps]
  · norm_num

/-- Claim C9 as amended: for rows whose daily amount and monthly
baseline are nonnegative, every velocity record has a nonnegative
velocity ratio, and the guarded divisor it was computed with is
strictly positive — never zero — so the ratio is an ordinary, finite
quotient (no division fault, no infinity/NaN). -/
theorem velocity_nonneg_amended (threshold : ℚ) (l : List AggRow)
    (h : ∀ r ∈ l, 0 ≤ r.daily_amount ∧ 0 ≤ r.monthly_baseline) :
    ∀ v ∈ compute_velocity_features l threshold,
      0 ≤ v.velocity
      ∧ ∃ r ∈ l, v = compute_velocity_row threshold r
        ∧ 0 < (if r.monthly_baseline / days_per_month = 0 then eps
               else r.monthly_baseline / days_per_month)
        ∧ v.velocity = r.daily_amount /
            (if r.monthly_baseline / days_per_month = 0 then eps
             else r.monthly_baseline / days_per_month) := by
  intro v hv
  rcases List.mem_map.mp hv with ⟨r, hr, rfl⟩
  rcases h r hr with ⟨h1, h2⟩
  have hdiv : 0 < (if r.monthly_baseline / days_per_month = 0 then eps
      else r.monthly_baseline / days_per_month) := by
    split
    · norm_num [eps]
    · next hne =>
        exact lt_of_le_of_ne (div_nonneg h2 (by norm_num [days_per_month]))
          (Ne.symm hne)
  refine ⟨?_, r, hr, rfl, hdiv, compute_velocity_row_velocity threshold r⟩
  rw [compute_velocity_row_velocity]
  exact div_nonneg h1 hdiv.le

/-- Witness for the amended C9 at a concrete nonnegative row. -/
theorem velocity_nonneg_amended_witness :
    0 ≤ (compute_velocity_row 3
      { account := "B", day := 1, daily_amount := 50,
        monthly_baseline := 600 }).velocity
    ∧ ∃ r ∈ [({ account := "B", day := 1, daily_amount := 50,
                monthly_baseline := 600 } : AggRow)],
        compute_velocity_row 3
          { account := "B", day := 1, daily_amount := 50,
            monthly_baseline := 600 } = compute_velocity_row 3 r
        ∧ 0 < (if r.monthly_baseline / days_per_month = 0 then eps
               else r.monthly_baseline / days_per_month)
        ∧ (compute_velocity_row 3
            { account := "B", day := 1, daily_amount := 50,
              monthly_baseline := 600 }).velocity
            = r.daily_amount /
                (if r.monthly_baseline / days_per_month = 0 then eps
                 else r.monthly_baseline / days_per_month) :=
  velocity_nonneg_amended 3
    [{ account := "B", day := 1, daily_amount := 50, monthly_baseline := 600 }]
    (by
      intro r hr
      rw [List.mem_singleton] at hr
      subst hr
      norm_num)
    (compute_velocity_row 3
      { account := "B", day := 1, daily_amount := 50, monthly_baseline := 600 })
    (by simp [compute_velocity_features])

/-- Result of sanitizing an amount cell is always a finite value. -/
theorem sanitizeRow_amount_fin (fill : ℚ) (x : Row) :
    ∃ q, (sanitizeRow fill x).amount = NumVal.fin q := by
  rcases hA : x.amount with q | _ | _ | _ <;> simp [sanitizeRow, hA]

/-- Amount sanitization does not touch the days-since column. -/
theorem sanitizeRow_daysSince (fill : ℚ) (x : Row) :
    (sanitizeRow fill x).daysSince = x.daysSince := rfl

/-- The days-since value produced by `cleanRow` is always defined, lies
in `[0, cap_days]` when `cap_days` is nonnegative, and is exactly
`cap_days` on an unknown date. -/
theorem cleanRow_daysSince (min_date max_date : ℚ) (cap_days : Int)
    (ref : ℚ) (r : Row) :
    ∃ v, (cleanRow min_date max_date cap_days ref r).daysSince = some v
      ∧ (0 ≤ cap_days → 0 ≤ v ∧ v ≤ cap_days)
      ∧ (r.date = none → v = cap_days) := by
  cases hd : r.date with
  | none =>
    exact ⟨cap_days, by simp [cleanRow, hd], fun h => ⟨h, le_refl _⟩, fun _ => rfl⟩
  | some t =>
    by_cases h1 : t < min_date
    · exact ⟨cap_days, by simp [cleanRow, hd, h1], fun h => ⟨h, le_refl _⟩,
        by simp [hd]⟩
    · by_cases h2 : t > max_date
      · exact ⟨cap_days, by simp [cleanRow, hd, h1, h2], fun h => ⟨h, le_refl _⟩,
          by simp [hd]⟩
      · refine ⟨clip 0 cap_days ⌊ref - t⌋, by simp [cleanRow, hd, h1, h2],
          fun h => ?_, by simp [hd]⟩
        unfold clip
        omega

/-- Claim C7: out-of-range dates are discarded, not snapped — a parsed
date strictly below `min_date` or strictly above `max_date` becomes the
unknown sentinel, a date within the inclusive bounds is kept unchanged,
and the cleaned date is only ever the original date or the sentinel
(never a truncated boundary value). -/
theorem dates_discarded_not_snapped (min_date max_date : ℚ) (cap_days : Int)
    (ref : ℚ) (r : Row) (t : ℚ) (h : r.date = some t) :
    (t < min_date → (cleanRow min_date max_date cap_days ref r).date = none)
    ∧ (t > max_date → (cleanRow min_date max_date cap_days ref r).date = none)
    ∧ (min_date ≤ t → t ≤ max_date →
        (cleanRow min_date max_date cap_days ref r).date = some t)
    ∧ ((cleanRow min_date max_date cap_days ref r).date = none
        ∨ (cleanRow min_date max_date cap_days ref r).date = some t) := by
  by_cases h1 : t < min_date
  · refine ⟨fun _ => ?_, fun _ => ?_,
      fun hmn _ => absurd h1 (not_lt.mpr hmn), Or.inl ?_⟩
    all_goals simp [cleanRow, h, h1]
  · by_cases h2 : t > max_date
    · refine ⟨fun hlt => absurd hlt h1, fun _ => ?_,
        fun _ hmx => absurd h2 (not_lt.mpr hmx), Or.inl ?_⟩
      all_goals simp [cleanRow, h, h1, h2]
    · refine ⟨fun hlt => absurd hlt h1, fun hgt => absurd hgt h2,
        fun _ _ => ?_, Or.inr ?_⟩
      all_goals simp [cleanRow, h, h1, h2]

/-- Witness for C7: a date above the maximum turns into the sentinel. -/
theorem dates_discarded_not_snapped_witness :
    (cleanRow 0 100 10 50
      { account := "A", date := some 150, amount := NumVal.fin 1,
        daysSince := none }).date = none :=
  (dates_discarded_not_snapped 0 100 10 50
    { account := "A", date := some 150, amount := NumVal.fin 1,
      daysSince := none } 150 rfl).2.1 (by norm_num)

/-- Claim C6: sanitizer totality — after the two sanitization passes
every row has a finite amount and a defined days-since value inside
`[0, cap_days]`, with unknown dates receiving exactly `cap_days`. -/
theorem sanitizer_totality (f : Frame) (date_col amount_col : String)
    (min_date max_date : ℚ) (cap_days : Int) (ref : ℚ) (fill : ℚ)
    (hd : date_col ∈ f.cols) (ha : amount_col ∈ f.cols)
    (hcap : 0 ≤ cap_days) :
    (sanitize_amounts
        (clean_transaction_dates f date_col min_date max_date cap_days ref)
        amount_col fill).rows
      = f.rows.map (fun r => sanitizeRow fill (cleanRow min_date max_date cap_days ref r))
    ∧ ∀ r ∈ f.rows,
        (∃ q, (sanitizeRow fill (cleanRow min_date max_date cap_days ref r)).amount
            = NumVal.fin q)
        ∧ (∃ v, (sanitizeRow fill (cleanRow min_date max_date cap_days ref r)).daysSince
            = some v ∧ 0 ≤ v ∧ v ≤ cap_days)
        ∧ (r.date = none →
            (sanitizeRow fill (cleanRow min_date max_date cap_days ref r)).daysSince
              = some cap_days) := by
  constructor
  · simp [clean_transaction_dates, sanitize_amounts, hd, mem_addCol_of_mem ha,
      List.map_map, Function.comp]
  · intro r _
    rcases cleanRow_daysSince min_date max_date cap_days ref r with
      ⟨v, hv, hbound, hnone⟩
    refine ⟨sanitizeRow_amount_fin fill _, ⟨v, ?_, (hbound hcap).1, (hbound hcap).2⟩, ?_⟩
    · rw [sanitizeRow_daysSince, hv]
    · intro hn
      rw [sanitizeRow_daysSince, hv, hnone hn]

/-- Witness for C6 on a one-row frame whose date is unknown and whose
amount is NaN. -/
theorem sanitizer_totality_witness :
    ("Transaction_Date" ∈ (["Transaction_Date", "Transaction_Amount"] : List String)
      ∧ "Transaction_Amount" ∈ (["Transaction_Date", "Transaction_Amount"] : List String)
      ∧ (0:Int) ≤ 1825)
    ∧ ((∃ q, (sanitizeRow 0 (cleanRow 0 30000 1825 20100
          { account := "A", date := none, amount := NumVal.nan,
            daysSince := none })).amount = NumVal.fin q)
      ∧ (∃ v, (sanitizeRow 0 (cleanRow 0 30000 1825 20100
          { account := "A", date := none, amount := NumVal.nan,
            daysSince := none })).daysSince = some v ∧ 0 ≤ v ∧ v ≤ 1825)
      ∧ (({ account := "A", date := none, amount := NumVal.nan,
            daysSince := none } : Row).date = none →
          (sanitizeRow 0 (cleanRow 0 30000 1825 20100
            { account := "A", date := none, amount := NumVal.nan,
              daysSince := none })).daysSince = some 1825)) :=
  ⟨⟨by decide, by decide, by decide⟩,
    (sanitizer_totality
      { cols := ["Transaction_Date", "Transaction_Amount"],
        rows := [{ account := "A", date := none, amount := NumVal.nan,
                   daysSince := none }] }
      "Transaction_Date" "Transaction_Amount" 0 30000 1825 20100 0
      (by decide) (by decide) (by decide)).2
      { account := "A", date := none, amount := NumVal.nan, daysSince := none }
      (List.mem_singleton.mpr rfl)⟩

/-! ### Idempotence of the sanitization stage -/

theorem clean_mk_pos {cols : List String} {dc : String} (hd : dc ∈ cols)
    (rows : List Row) (mn mx : ℚ) (cap : Int) (ref : ℚ) :
    clean_transaction_dates (Frame.mk cols rows) dc mn mx cap ref
      = Frame.mk (addCol cols "_days_since_date")
          (rows.map (cleanRow mn mx cap ref)) := by
  rw [clean_transaction_dates, if_pos hd]

theorem clean_mk_neg {cols : List String} {dc : String} (hd : dc ∉ cols)
    (rows : List Row) (mn mx : ℚ) (cap : Int) (ref : ℚ) :
    clean_transaction_dates (Frame.mk cols rows) dc mn mx cap ref
      = Frame.mk cols rows := by
  rw [clean_transaction_dates, if_neg hd]

theorem san_mk_pos {cols : List String} {ac : String} (ha : ac ∈ cols)
    (rows : List Row) (fi : ℚ) :
    sanitize_amounts (Frame.mk cols rows) ac fi
      = Frame.mk cols (rows.map (sanitizeRow fi)) := by
  rw [sanitize_amounts, if_pos ha]

theorem san_mk_neg {cols : List String} {ac : String} (ha : ac ∉ cols)
    (rows : List Row) (fi : ℚ) :
    sanitize_amounts (Frame.mk cols rows) ac fi = Frame.mk cols rows := by
  rw [sanitize_amounts, if_neg ha]

/-- Cleaning a row twice with the same configuration is the same as
cleaning it once. -/
theorem cleanRow_idem (mn mx : ℚ) (cap : Int) (ref : ℚ) (r : Row) :
    cleanRow mn mx cap ref (cleanRow mn mx cap ref r)
      = cleanRow mn mx cap ref r := by
  cases hd : r.date with
  | none => simp [cleanRow, hd]
  | some t =>
    by_cases h1 : t < mn
    · simp [cleanRow, hd, h1]
    · by_cases h2 : t > mx
      · simp [cleanRow, hd, h1, h2]
      · simp [cleanRow, hd, h1, h2]

/-- Date cleaning and amount sanitization act on disjoint fields. -/
theorem cleanRow_sanitizeRow_comm (mn mx : ℚ) (cap : Int) (ref : ℚ)
    (fi : ℚ) (r : Row) :
    cleanRow mn mx cap ref (sanitizeRow fi r)
      = sanitizeRow fi (cleanRow mn mx cap ref r) := rfl

/-- Sanitizing an amount twice is the same as sanitizing it once. -/
theorem sanitizeRow_idem (fi : ℚ) (r : Row) :
    sanitizeRow fi (sanitizeRow fi r) = sanitizeRow fi r := by
  rcases hA : r.amount with q | _ | _ | _ <;> simp [sanitizeRow, hA]

/-- Claim C8: fill idempotence — applying the sanitization stage
(`clean_transaction_dates` then `sanitize_amounts`, same configuration,
same reference timestamp) to an already-sanitized record set leaves it
unchanged: the sanitized form is a fixed point. -/
theorem fill_idempotence (f : Frame) (date_col amount_col : String)
    (min_date max_date : ℚ) (cap_days : Int) (ref : ℚ) (fill : ℚ) :
    sanitize_amounts
      (clean_transaction_dates
        (sanitize_amounts
          (clean_transaction_dates f date_col min_date max_date cap_days ref)
          amount_col fill)
        date_col min_date max_date cap_days ref)
      amount_col fill
    = sanitize_amounts
        (clean_transaction_dates f date_col min_date max_date cap_days ref)
        amount_col fill := by
  obtain ⟨cols0, rows0⟩ := f
  by_cases hd : date_col ∈ cols0
  · rw [clean_mk_pos hd]
    by_cases ha : amount_col ∈ addCol cols0 "_days_since_date"
    · rw [san_mk_pos ha, clean_mk_pos (mem_addCol_of_mem hd), addCol_addCol,
        san_mk_pos ha]
      simp only [List.map_map]
      congr 1
      apply List.map_congr_left
      intro r _
      simp only [Function.comp]
      rw [cleanRow_sanitizeRow_comm, cleanRow_idem, sanitizeRow_idem]
    · rw [san_mk_neg ha, clean_mk_pos (mem_addCol_of_mem hd), addCol_addCol,
        san_mk_neg ha]
      simp only [List.map_map]
      congr 1
      apply List.map_congr_left
      intro r _
      simp only [Function.comp]
      rw [cleanRow_idem]
  · rw [clean_mk_neg hd]
    by_cases ha : amount_col ∈ cols0
    · rw [san_mk_pos ha, clean_mk_neg hd, san_mk_pos ha]
      simp only [List.map_map]
      congr 1
      apply List.map_congr_left
      intro r _
      simp only [Function.comp]
      rw [sanitizeRow_idem]
    · rw [san_mk_neg ha, clean_mk_neg hd, san_mk_neg ha]

/-! ### The monthly baseline equals the mean of the monthly sums -/

/-- Looking an account up in a keyed list built over distinct accounts
finds exactly that account's value. -/
theorem find?_tagged (accts : List String) (g : String → ℚ) (a : String) :
    (accts.map fun x => (x, g x)).find? (fun p => p.1 = a)
      = if a ∈ accts then some (a, g a) else none := by
  induction accts with
  | nil => rfl
  | cons x xs ih =>
    by_cases hx : x = a
    · subst hx
      rw [List.map_cons, List.find?_cons_of_pos _ (by simp),
        if_pos (List.mem_cons_self _ _)]
    · rw [List.map_cons, List.find?_cons_of_neg _ (by simp [hx]), ih]
      by_cases hmem : a ∈ xs
      · rw [if_pos hmem, if_pos (List.mem_cons_of_mem _ hmem)]
      · rw [if_neg hmem, if_neg (by
          simp only [List.mem_cons, hmem, or_false]
          exact fun h => hx h.symm)]

/-- Deduplication commutes with filtering. -/
theorem dedup_filter {α : Type} [DecidableEq α] (p : α → Bool) (l : List α) :
    l.dedup.filter p = (l.filter p).dedup := by
  induction l with
  | nil => rfl
  | cons x xs ih =>
    by_cases hmem : x ∈ xs
    · rw [List.dedup_cons_of_mem hmem]
      by_cases hp : p x = true
      · rw [List.filter_cons_of_pos hp,
          List.dedup_cons_of_mem (List.mem_filter.mpr ⟨hmem, hp⟩), ih]
      · rw [List.filter_cons_of_neg hp, ih]
    · rw [List.dedup_cons_of_not_mem hmem]
      by_cases hp : p x = true
      · rw [List.filter_cons_of_pos hp, List.filter_cons_of_pos hp,
          List.dedup_cons_of_not_mem (fun hc => hmem (List.mem_of_mem_filter hc)),
          ih]
      · rw [List.filter_cons_of_neg hp, List.filter_cons_of_neg hp, ih]

/-- Deduplicating pairs whose first components are all equal is the same
as deduplicating the second components and re-tagging. -/
theorem dedup_const_fst {β : Type} [DecidableEq β] (a : String) :
    ∀ l : List (String × β), (∀ x ∈ l, x.1 = a) →
      l.dedup = (l.map Prod.snd).dedup.map fun m => (a, m) := by
  intro l
  induction l with
  | nil => intro _; rfl
  | cons x xs ih =>
    intro h
    have hx : x.1 = a := h x (List.mem_cons_self _ _)
    have hxs : ∀ y ∈ xs, y.1 = a := fun y hy => h y (List.mem_cons_of_mem _ hy)
    obtain ⟨x1, x2⟩ := x
    subst hx
    by_cases hmem : ((x1, x2) : String × β) ∈ xs
    · have h2 : x2 ∈ xs.map Prod.snd := List.mem_map.mpr ⟨(x1, x2), hmem, rfl⟩
      rw [List.dedup_cons_of_mem hmem, List.map_cons,
        List.dedup_cons_of_mem h2, ih hxs]
    · have h2 : x2 ∉ xs.map Prod.snd := by
        intro hc
        rcases List.mem_map.mp hc with ⟨y, hy, hsnd⟩
        apply hmem
        have hy1 : y = (x1, x2) := Prod.ext (hxs y hy) hsnd
        rwa [hy1] at hy
      rw [List.dedup_cons_of_not_mem hmem, List.map_cons,
        List.dedup_cons_of_not_mem h2, List.map_cons, ih hxs]

/-- The months attached to account `a` among the monthly group keys are
exactly the months of `a`-rows with a known date. -/
theorem monthPairs_filter_snd (rows : List Row) (a : String) :
    (((monthPairs rows).filter fun k => k.1 = a).map Prod.snd)
      = (rows.filter fun r => r.account = a).filterMap
          (fun r => r.date.map fun t => monthKey t) := by
  induction rows with
  | nil => rfl
  | cons r rs ih =>
    by_cases hacc : r.account = a
    · cases hdate : r.date with
      | none =>
        simpa [monthPairs, List.filterMap_cons, List.filter_cons, hdate, hacc]
          using ih
      | some t =>
        simpa [monthPairs, List.filterMap_cons, List.filter_cons, hdate, hacc]
          using ih
    · cases hdate : r.date with
      | none =>
        simpa [monthPairs, List.filterMap_cons, List.filter_cons, hdate, hacc]
          using ih
      | some t =>
        simpa [monthPairs, List.filterMap_cons, List.filter_cons, hdate, hacc]
          using ih

/-- An account outside the monthly account list has no dated months. -/
theorem accountMonths_nil_of_not_mem (rows : List Row) (a : String)
    (h : a ∉ ((monthlyFrame rows).map fun m => m.account).dedup) :
    accountMonths rows a = [] := by
  have hfil : (monthPairs rows).filter (fun k => k.1 = a) = [] := by
    rw [List.filter_eq_nil_iff]
    intro k hk hka
    apply h
    rw [List.mem_dedup]
    refine List.mem_map.mpr ⟨⟨k.1, k.2, monthSum rows k⟩, ?_, by simpa using hka⟩
    exact List.mem_map.mpr ⟨k, List.mem_dedup.mpr hk, rfl⟩
  have : (((monthPairs rows).filter fun k => k.1 = a).map Prod.snd) = [] := by
    rw [hfil]; rfl
  rw [monthPairs_filter_snd] at this
  rw [accountMonths, this]
  rfl

/-- The per-account mean over the monthly-sum frame equals the
spec-side baseline (mean over the account's months of its monthly sums). -/
theorem baseline_val_eq (rows : List Row) (a : String) :
    listMean (((monthlyFrame rows).filter fun m => m.account = a).map
      fun m => m.amount) = specBaseline rows a := by
  rw [specBaseline]
  congr 1
  rw [monthlyFrame, List.filter_map, List.map_map]
  show (((monthPairs rows).dedup.filter fun k => decide (k.1 = a)).map
      fun k => monthSum rows k)
    = (accountMonths rows a).map fun m => monthSum rows (a, m)
  rw [dedup_filter]
  rw [dedup_const_fst a ((monthPairs rows).filter fun k => decide (k.1 = a))
    (fun x hx => by simpa using (List.mem_filter.mp hx).2)]
  rw [List.map_map]
  show ((((monthPairs rows).filter fun k => k.1 = a).map Prod.snd).dedup.map
      fun m => monthSum rows (a, m))
    = (accountMonths rows a).map fun m => monthSum rows (a, m)
  rw [monthPairs_filter_snd]
  rfl

/-- Inversion: a successful aggregation returns the merge of the daily
aggregates with the second-stage monthly baselines. -/
theorem aggregates_ok_shape (f : Frame) (account_col date_col amount_col : String)
    (out : List AggRow)
    (hok : daily_and_monthly_aggregates f account_col date_col amount_col
      = Except.ok out) :
    out = mergeBaseline (dailyAgg f.rows) (monthly2 f.rows) := by
  simp only [daily_and_monthly_aggregates] at hok
  by_cases c1 : date_col ∈ f.cols
  · rw [if_pos c1] at hok
    by_cases c2 : account_col ∈ addCol f.cols "txn_date_only"
    · rw [if_pos c2] at hok
      by_cases c3 : amount_col ∈ addCol f.cols "txn_date_only"
      · rw [if_pos c3] at hok
        by_cases c4 : "amount" = account_col ∨ "amount" = amount_col
        · rw [if_pos c4] at hok
          injection hok with h
          exact h.symm
        · rw [if_neg c4] at hok
          exact Except.noConfusion hok
      · rw [if_neg c3] at hok
        exact Except.noConfusion hok
    · rw [if_neg c2] at hok
      exact Except.noConfusion hok
  · rw [if_neg c1] at hok
    exact Except.noConfusion hok

/-- Claim C4: whenever `daily_and_monthly_aggregates` returns a record
set on a sanitized input, every output row's monthly baseline equals the
arithmetic mean, over that account's calendar months present in the
input, of the account's summed amounts in each month (sum per
(account, month) first, then mean per account); the baseline falls back
to 0.0 (never undefined) for an account without a computable baseline. -/
theorem baseline_mean_monthly (f : Frame) (account_col date_col amount_col : String)
    (out : List AggRow)
    (hok : daily_and_monthly_aggregates f account_col date_col amount_col
      = Except.ok out)
    (_hsan : ∀ r ∈ f.rows, ∃ q, r.amount = NumVal.fin q) :
    ∀ row ∈ out, row.monthly_baseline = specBaseline f.rows row.account := by
  have hshape := aggregates_ok_shape f account_col date_col amount_col out hok
  subst hshape
  intro row hrow
  unfold mergeBaseline at hrow
  rcases List.mem_map.mp hrow with ⟨d, _, rfl⟩
  show (match (monthly2 f.rows).find? (fun p => p.1 = d.account) with
      | some p => p.2
      | none => 0) = specBaseline f.rows d.account
  rw [monthly2, find?_tagged]
  by_cases hmem : d.account ∈ ((monthlyFrame f.rows).map fun m => m.account).dedup
  · rw [if_pos hmem]
    exact baseline_val_eq f.rows d.account
  · rw [if_neg hmem]
    rw [specBaseline, accountMonths_nil_of_not_mem f.rows d.account hmem]
    simp [listMean]

/-- Witness for C4 on a one-transaction frame (the configured amount
column must be literally named "amount" for the aggregation to
succeed, see C1/C2): the produced baseline 5 equals the spec-side mean. -/
theorem baseline_mean_monthly_witness :
    (5 : ℚ) = specBaseline
      [{ account := "A", date := some 10, amount := NumVal.fin 5,
         daysSince := none }] "A" :=
  (baseline_mean_monthly
    { cols := ["acct", "date", "amount"],
      rows := [{ account := "A", date := some 10, amount := NumVal.fin 5,
                 daysSince := none }] }
    "acct" "date" "amount"
    (mergeBaseline
      (dailyAgg [{ account := "A", date := some 10, amount := NumVal.fin 5,
                   daysSince := none }])
      (monthly2 [{ account := "A", date := some 10, amount := NumVal.fin 5,
                   daysSince := none }]))
    rfl
    (by
      intro r hr
      rw [List.mem_singleton] at hr
      subst hr
      exact ⟨5, rfl⟩))
    { account := "A", day := 10, daily_amount := 5, monthly_baseline := 5 }
    (by
      simp [mergeBaseline, dailyAgg, monthly2, dailyPairs, dailySum,
        monthlyFrame, monthPairs, monthSum, listMean, amountQ, dayKey,
        monthKey, civilYM])

/-! ### Determinism: the pipeline output is invariant under input row order -/

theorem dailySum_perm {l1 l2 : List Row} (h : l1.Perm l2) :
    dailySum l1 = dailySum l2 := by
  funext k
  unfold dailySum
  exact ((h.filter _).map _).sum_eq

theorem monthSum_perm {l1 l2 : List Row} (h : l1.Perm l2) :
    monthSum l1 = monthSum l2 := by
  funext k
  unfold monthSum
  exact ((h.filter _).map _).sum_eq

theorem dailyAgg_perm {l1 l2 : List Row} (h : l1.Perm l2) :
    (dailyAgg l1).Perm (dailyAgg l2) := by
  unfold dailyAgg
  rw [dailySum_perm h]
  exact ((h.filterMap _).dedup).map _

theorem monthlyFrame_perm {l1 l2 : List Row} (h : l1.Perm l2) :
    (monthlyFrame l1).Perm (monthlyFrame l2) := by
  unfold monthlyFrame
  rw [monthSum_perm h]
  exact ((h.filterMap _).dedup).map _

theorem monthlyMeanFun_perm {l1 l2 : List Row} (h : l1.Perm l2) :
    (fun a => listMean (((monthlyFrame l1).filter fun m => m.account = a).map
        fun m => m.amount))
      = fun a => listMean (((monthlyFrame l2).filter fun m => m.account = a).map
        fun m => m.amount) := by
  funext a
  have hp := ((monthlyFrame_perm h).filter
    (fun m => decide (m.account = a))).map (fun m => m.amount)
  unfold listMean
  rw [hp.sum_eq, hp.length_eq]

/-- The left merge over a keyed list is a pointwise lookup with 0.0
fallback. -/
theorem mergeBaseline_tagged (daily : List DRow) (accts : List String)
    (g : String → ℚ) :
    mergeBaseline daily (accts.map fun a => (a, g a))
      = daily.map fun d =>
          { account := d.account, day := d.day, daily_amount := d.daily_amount,
            monthly_baseline := if d.account ∈ accts then g d.account else 0 } := by
  unfold mergeBaseline
  apply List.map_congr_left
  intro d _
  rw [find?_tagged]
  by_cases hmem : d.account ∈ accts
  · rw [if_pos hmem, if_pos hmem]
  · rw [if_neg hmem, if_neg hmem]

theorem mergeBaseline_perm {l1 l2 : List Row} (h : l1.Perm l2) :
    (mergeBaseline (dailyAgg l1) (monthly2 l1)).Perm
      (mergeBaseline (dailyAgg l2) (monthly2 l2)) := by
  rw [monthly2, monthly2, mergeBaseline_tagged, mergeBaseline_tagged]
  have hacc : ∀ a : String,
      (a ∈ ((monthlyFrame l1).map fun m => m.account).dedup)
        ↔ (a ∈ ((monthlyFrame l2).map fun m => m.account).dedup) :=
    fun a => (((monthlyFrame_perm h).map _).dedup).mem_iff
  have hg := monthlyMeanFun_perm h
  have hF : (fun d : DRow =>
      ({ account := d.account, day := d.day, daily_amount := d.daily_amount,
         monthly_baseline :=
           if d.account ∈ ((monthlyFrame l1).map fun m => m.account).dedup then
             listMean (((monthlyFrame l1).filter fun m => m.account = d.account).map
               fun m => m.amount)
           else 0 } : AggRow))
    = fun d : DRow =>
      ({ account := d.account, day := d.day, daily_amount := d.daily_amount,
         monthly_baseline :=
           if d.account ∈ ((monthlyFrame l2).map fun m => m.account).dedup then
             listMean (((monthlyFrame l2).filter fun m => m.account = d.account).map
               fun m => m.amount)
           else 0 } : AggRow) := by
    funext d
    rw [if_congr (hacc d.account) (congrFun hg d.account) rfl]
  rw [hF]
  exact (dailyAgg_perm h).map _

/-- The sanitization stage written as an explicit frame, separating the
schema (depending only on the input schema) from the row transformation. -/
theorem san_clean_eq (cols : List String) (rows : List Row) (dc : String)
    (mn mx : ℚ) (cap : Int) (ref : ℚ) (ac : String) (fi : ℚ) :
    sanitize_amounts (clean_transaction_dates (Frame.mk cols rows) dc mn mx cap ref) ac fi
      = Frame.mk
          (if dc ∈ cols then addCol cols "_days_since_date" else cols)
          (if dc ∈ cols then
            (if ac ∈ addCol cols "_days_since_date" then
              (rows.map (cleanRow mn mx cap ref)).map (sanitizeRow fi)
            else rows.map (cleanRow mn mx cap ref))
          else (if ac ∈ cols then rows.map (sanitizeRow fi) else rows)) := by
  by_cases hd : dc ∈ cols
  · rw [clean_mk_pos hd, if_pos hd, if_pos hd]
    by_cases ha : ac ∈ addCol cols "_days_since_date"
    · rw [san_mk_pos ha, if_pos ha]
    · rw [san_mk_neg ha, if_neg ha]
  · rw [clean_mk_neg hd, if_neg hd, if_neg hd]
    by_cases ha : ac ∈ cols
    · rw [san_mk_pos ha, if_pos ha]
    · rw [san_mk_neg ha, if_neg ha]

/-- A permutation of the input rows survives the sanitization stage's
row transformation. -/
theorem san_clean_rows_perm (cols : List String) {rows1 rows2 : List Row}
    (h : rows1.Perm rows2) (dc : String) (mn mx : ℚ) (cap : Int) (ref : ℚ)
    (ac : String) (fi : ℚ) :
    (if dc ∈ cols then
      (if ac ∈ addCol cols "_days_since_date" then
        (rows1.map (cleanRow mn mx cap ref)).map (sanitizeRow fi)
      else rows1.map (cleanRow mn mx cap ref))
    else (if ac ∈ cols then rows1.map (sanitizeRow fi) else rows1)).Perm
      (if dc ∈ cols then
        (if ac ∈ addCol cols "_days_since_date" then
          (rows2.map (cleanRow mn mx cap ref)).map (sanitizeRow fi)
        else rows2.map (cleanRow mn mx cap ref))
      else (if ac ∈ cols then rows2.map (sanitizeRow fi) else rows2)) := by
  by_cases hd : dc ∈ cols
  · rw [if_pos hd, if_pos hd]
    by_cases ha : ac ∈ addCol cols "_days_since_date"
    · rw [if_pos ha, if_pos ha]
      exact (h.map _).map _
    · rw [if_neg ha, if_neg ha]
      exact h.map _
  · rw [if_neg hd, if_neg hd]
    by_cases ha : ac ∈ cols
    · rw [if_pos ha, if_pos ha]
      exact h.map _
    · rw [if_neg ha, if_neg ha]
      exact h

/-- On permuted rows over the same schema, the aggregation either fails
with the same error or returns outputs that are permutations. -/
theorem aggregates_perm_or_error (c : List String) {l1 l2 : List Row}
    (h : l1.Perm l2) (account_col date_col amount_col : String) :
    (∃ e, daily_and_monthly_aggregates (Frame.mk c l1) account_col date_col amount_col
        = Except.error e
      ∧ daily_and_monthly_aggregates (Frame.mk c l2) account_col date_col amount_col
        = Except.error e)
    ∨ (∃ o1 o2, daily_and_monthly_aggregates (Frame.mk c l1) account_col date_col amount_col
        = Except.ok o1
      ∧ daily_and_monthly_aggregates (Frame.mk c l2) account_col date_col amount_col
        = Except.ok o2
      ∧ o1.Perm o2) := by
  unfold daily_and_monthly_aggregates
  dsimp only
  by_cases c1 : date_col ∈ c
  · rw [if_pos c1, if_pos c1]
    by_cases c2 : account_col ∈ addCol c "txn_date_only"
    · rw [if_pos c2, if_pos c2]
      by_cases c3 : amount_col ∈ addCol c "txn_date_only"
      · rw [if_pos c3, if_pos c3]
        by_cases c4 : "amount" = account_col ∨ "amount" = amount_col
        · rw [if_pos c4, if_pos c4]
          exact Or.inr ⟨_, _, rfl, rfl, mergeBaseline_perm h⟩
        · rw [if_neg c4, if_neg c4]
          exact Or.inl ⟨_, rfl, rfl⟩
      · rw [if_neg c3, if_neg c3]
        exact Or.inl ⟨_, rfl, rfl⟩
    · rw [if_neg c2, if_neg c2]
      exact Or.inl ⟨_, rfl, rfl⟩
  · rw [if_neg c1, if_neg c1]
    exact Or.inl ⟨_, rfl, rfl⟩

/-- Claim C10: determinism and reproducibility — the full pipeline is a
pure function of its input rows and configuration, and on inputs that
are permutations of each other (the same multiset, any row order, in
particular the same list twice) it yields the same error or output
record multisets, so re-running changes nothing and input row order is
irrelevant. -/
theorem pipeline_deterministic (cols : List String) (rows1 rows2 : List Row)
    (date_col : String) (min_date max_date : ℚ) (cap_days : Int) (ref : ℚ)
    (amount_col : String) (fill : ℚ) (account_col : String) (threshold : ℚ)
    (hperm : rows1.Perm rows2) :
    sameUpToRowOrder
      (pipeline (Frame.mk cols rows1) date_col min_date max_date cap_days ref
        amount_col fill account_col threshold)
      (pipeline (Frame.mk cols rows2) date_col min_date max_date cap_days ref
        amount_col fill account_col threshold) := by
  unfold pipeline
  dsimp only
  rw [san_clean_eq, san_clean_eq]
  rcases aggregates_perm_or_error
      (if date_col ∈ cols then addCol cols "_days_since_date" else cols)
      (san_clean_rows_perm cols hperm date_col min_date max_date cap_days ref
        amount_col fill)
      account_col date_col amount_col with
    ⟨e, h1, h2⟩ | ⟨o1, o2, h1, h2, hp⟩
  · rw [h1, h2]
    simp [Except.map, sameUpToRowOrder]
  · rw [h1, h2]
    simp only [Except.map, sameUpToRowOrder]
    exact hp.map _

/-- Witness for C10: swapping two concrete input rows. -/
theorem pipeline_deterministic_witness :
    sameUpToRowOrder
      (pipeline (Frame.mk ["acct", "date", "amount"]
        [{ account := "A", date := some 10, amount := NumVal.fin 5, daysSince := none },
         { account := "B", date := some 40, amount := NumVal.fin 7, daysSince := none }])
        "date" 0 30000 1825 20100 "amount" 0 "acct" 3)
      (pipeline (Frame.mk ["acct", "date", "amount"]
        [{ account := "B", date := some 40, amount := NumVal.fin 7, daysSince := none },
         { account := "A", date := some 10, amount := NumVal.fin 5, daysSince := none }])
        "date" 0 30000 1825 20100 "amount" 0 "acct" 3) :=
  pipeline_deterministic ["acct", "date", "amount"]
    [{ account := "A", date := some 10, amount := NumVal.fin 5, daysSince := none },
     { account := "B", date := some 40, amount := NumVal.fin 7, daysSince := none }]
    [{ account := "B", date := some 40, amount := NumVal.fin 7, daysSince := none },
     { account := "A", date := some 10, amount := NumVal.fin 5, daysSince := none }]
    "date" 0 30000 1825 20100 "amount" 0 "acct" 3
    (List.Perm.swap _ _ _)

end TxnAnalysis
